import Mathlib

/-!
Shallow embedding of the REPR WebGL physically based renderer.

The repository ships two shading variants:
* the base variant: fragment shader of src/unnamed/part_000 together with the
  second vertex shader of src/src/shader/pbr.vert.ts (the one that writes
  vWsPosition, vWsNormal, vWsViewPosition);
* the richer (IBL) variant: fragment shader of src/unnamed/part_001 together
  with the first vertex shader of src/src/shader/pbr.vert.ts, driven by the
  first Application of src/unnamed/part_002.

GLSL floats are modelled as real numbers; GLSL vec2/vec3/vec4 as records of
reals with componentwise arithmetic; samplers as functions from UV
coordinates to texel values; the uniform array uLights together with the
engine controlled LIGHT_COUNT define as a Lean list, the per light for loop
as a fold over that list.  The literal 3.1415926535897932384626433832795 that
both fragment shaders  #define  as PI is the decimal expansion of the real
number pi to well beyond float precision, so PI is modelled as Real.pi.
-/

/-- GLSL vec2 over the reals. -/
structure Vec2 where
  x : ℝ
  y : ℝ

/-- GLSL vec3 over the reals. -/
structure Vec3 where
  x : ℝ
  y : ℝ
  z : ℝ

/-- GLSL vec4 over the reals. -/
structure Vec4 where
  x : ℝ
  y : ℝ
  z : ℝ
  w : ℝ

namespace Vec3

/-- Componentwise addition, GLSL  v + w  on vec3. -/
instance : Add Vec3 :=
  ⟨fun a b => ⟨a.x + b.x, a.y + b.y, a.z + b.z⟩⟩

/-- Componentwise subtraction, GLSL  v - w  on vec3. -/
instance : Sub Vec3 :=
  ⟨fun a b => ⟨a.x - b.x, a.y - b.y, a.z - b.z⟩⟩

/-- Componentwise multiplication, GLSL  v * w  on vec3. -/
instance : Mul Vec3 :=
  ⟨fun a b => ⟨a.x * b.x, a.y * b.y, a.z * b.z⟩⟩

/-- Componentwise negation, GLSL  -v  on vec3. -/
instance : Neg Vec3 :=
  ⟨fun a => ⟨-a.x, -a.y, -a.z⟩⟩

/-- GLSL  v * s  for a vec3 and a float scalar. -/
def smulR (v : Vec3) (r : ℝ) : Vec3 :=
  ⟨v.x * r, v.y * r, v.z * r⟩

/-- GLSL  v / s  for a vec3 and a float scalar. -/
noncomputable def divScalar (v : Vec3) (r : ℝ) : Vec3 :=
  ⟨v.x / r, v.y / r, v.z / r⟩

/-- GLSL scalar-to-vec3 splat, as in  vec3(0.04)  or the implicit widening
in  v * 0.5 + 0.5 . -/
def splat (r : ℝ) : Vec3 :=
  ⟨r, r, r⟩

/-- GLSL  vec3(0.0) . -/
def zero : Vec3 :=
  ⟨0, 0, 0⟩

/-- GLSL  dot(a, b) . -/
def dot (a b : Vec3) : ℝ :=
  a.x * b.x + a.y * b.y + a.z * b.z

/-- GLSL  length(v) . -/
noncomputable def length (v : Vec3) : ℝ :=
  Real.sqrt (dot v v)

/-- GLSL  normalize(v) , the vector divided by its length.  At the zero
vector the real-number model yields componentwise division by zero, hence
the zero vector (the GLSL result is unspecified there). -/
noncomputable def normalize (v : Vec3) : Vec3 :=
  divScalar v (length v)

/-- GLSL  mix(a, b, t) = a * (1 - t) + b * t  componentwise on vec3. -/
def mix (a b : Vec3) (t : ℝ) : Vec3 :=
  ⟨a.x * (1 - t) + b.x * t, a.y * (1 - t) + b.y * t, a.z * (1 - t) + b.z * t⟩

/-- GLSL  reflect(i, n) = i - 2 * dot(n, i) * n . -/
def reflect (i n : Vec3) : Vec3 :=
  i - smulR n (2 * dot n i)

end Vec3

namespace Vec4

/-- GLSL  vec4(v, w)  from a vec3 and a float. -/
def ofVec3 (v : Vec3) (w : ℝ) : Vec4 :=
  ⟨v.x, v.y, v.z, w⟩

/-- GLSL swizzle  v.rgb . -/
def rgb (v : Vec4) : Vec3 :=
  ⟨v.x, v.y, v.z⟩

end Vec4

/-- The constant  PI  of both fragment shaders (the source literal
3.1415926535897932384626433832795 is the decimal expansion of pi). -/
noncomputable def PI : ℝ :=
  Real.pi

/-- GLSL  atan(y, x) , the two argument arctangent, modelled by the
argument of the complex number  x + y i , which agrees with atan2 on its
range (-pi, pi]. -/
noncomputable def atan2 (y x : ℝ) : ℝ :=
  Complex.arg ⟨x, y⟩

/-- Function  cartesianToPolar  of src/unnamed/part_000 lines 37-43 and
src/unnamed/part_001 lines 53-59: azimuthal angle phi in [-PI, PI] and
polar angle theta in [-PI/2, PI/2] of a unit cartesian vector. -/
noncomputable def cartesianToPolar (cartesian : Vec3) : Vec2 :=
  ⟨atan2 cartesian.z cartesian.x, Real.arcsin cartesian.y⟩

/-- One channel of  sRGBToLinear  (src/unnamed/part_000 lines 46-48 and
src/unnamed/part_001 lines 62-64).  The GLSL body computes
mix(pow(c * 0.9478672986 + 0.0521327014, 2.4), c * 0.0773993808,
lessThanEqual(c, 0.04045))  per channel, where the boolean mask selects the
second expression exactly when  c <= 0.04045 . -/
noncomputable def sRGBToLinearChannel (c : ℝ) : ℝ :=
  if c ≤ 0.04045 then c * 0.0773993808
  else (c * 0.9478672986 + 0.0521327014) ^ (2.4 : ℝ)

/-- Function  sRGBToLinear  of both fragment shaders: the piecewise sRGB to
linear transfer applied to the rgb channels, alpha passed through. -/
noncomputable def sRGBToLinear (value : Vec4) : Vec4 :=
  ⟨sRGBToLinearChannel value.x, sRGBToLinearChannel value.y,
    sRGBToLinearChannel value.z, value.w⟩

/-- One channel of  LinearTosRGB  (src/unnamed/part_000 lines 51-53 and
src/unnamed/part_001 lines 67-69).  The GLSL body computes
mix(pow(c, 0.41666) * 1.055 - 0.055, c * 12.92, lessThanEqual(c, 0.0031308))
per channel. -/
noncomputable def LinearTosRGBChannel (c : ℝ) : ℝ :=
  if c ≤ 0.0031308 then c * 12.92
  else c ^ (0.41666 : ℝ) * 1.055 - 0.055

/-- Function  LinearTosRGB  of both fragment shaders: the piecewise linear
to sRGB transfer applied to the rgb channels, alpha passed through. -/
noncomputable def LinearTosRGB (value : Vec4) : Vec4 :=
  ⟨LinearTosRGBChannel value.x, LinearTosRGBChannel value.y,
    LinearTosRGBChannel value.z, value.w⟩

/-- Function  FresnelSchlick  of both fragment shaders:
F0 + (1 - F0) * pow(1 - cosTheta, 5). -/
def FresnelSchlick (cosTheta : ℝ) (F0 : Vec3) : Vec3 :=
  F0 + (Vec3.splat 1 - F0).smulR ((1 - cosTheta) ^ (5 : ℕ))

/-- Function  GeometrySchlickGGX  of both fragment shaders. -/
noncomputable def GeometrySchlickGGX (NdotV roughness : ℝ) : ℝ :=
  let a := roughness + 1
  let k := a * a / 8
  NdotV / (NdotV * (1 - k) + k)

/-- Function  GeometrySmith  of both fragment shaders. -/
noncomputable def GeometrySmith (N V L : Vec3) (roughness : ℝ) : ℝ :=
  let NdotV := max (Vec3.dot N V) 0
  let NdotL := max (Vec3.dot N L) 0
  GeometrySchlickGGX NdotV roughness * GeometrySchlickGGX NdotL roughness

/-- Function  DistributionGGX  of src/unnamed/part_000 lines 88-94 and
src/unnamed/part_001 lines 101-107: the shader sets  a2 = roughness *
roughness  and returns  a2 / (PI * denom * denom)  with
denom = NdotH2 * (a2 - 1) + 1  and  NdotH = max(dot(N, H), 0) . -/
noncomputable def DistributionGGX (N H : Vec3) (roughness : ℝ) : ℝ :=
  let a2 := roughness * roughness
  let NdotH := max (Vec3.dot N H) 0
  let NdotH2 := NdotH * NdotH
  let denom := NdotH2 * (a2 - 1) + 1
  a2 / (PI * denom * denom)

/-- The GGX normal distribution exactly as the specification states it in
section 4.3 step 4:  D = alpha^2 / (PI * ((N.H)^2 * (alpha^2 - 1) + 1)^2) ,
taken as a function of the inner product  N.H  and of  alpha . -/
noncomputable def ggxSpecFormula (NdotH alpha : ℝ) : ℝ :=
  alpha ^ (2 : ℕ) / (PI * (NdotH ^ (2 : ℕ) * (alpha ^ (2 : ℕ) - 1) + 1) ^ (2 : ℕ))

/-- The Lambertian diffuse term of the light loop in both fragment shaders
(src/unnamed/part_000 lines 126-131, src/unnamed/part_001 lines 147-152):
kS = F; kD = (1 - kS) * (1 - metallic); diffuse = kD * albedo / PI. -/
noncomputable def diffuseTerm (F albedo : Vec3) (metallic : ℝ) : Vec3 :=
  let kS := F
  let kD := (Vec3.splat 1 - kS).smulR (1 - metallic)
  (kD * albedo).divScalar PI

namespace BaseFrag

/-- Uniform struct  Attributes  of src/unnamed/part_000 lines 19-26. -/
structure Attributes where
  position : Vec3
  albedo : Vec3
  metallic : ℝ
  roughness : ℝ

/-- Uniform struct  Light  of src/unnamed/part_000 lines 28-33. -/
structure Light where
  type : ℤ
  position : Vec3
  color : Vec3
  intensity : ℝ

/-- Define  LIGHT_TYPE_POINT  of src/unnamed/part_000 line 8. -/
def LIGHT_TYPE_POINT : ℤ := 0

/-- Define  LIGHT_TYPE_DIRECTIONAL  of src/unnamed/part_000 line 9. -/
def LIGHT_TYPE_DIRECTIONAL : ℤ := 1

/-- Function  getLightDirection  of src/unnamed/part_000 lines 55-62: a
directional light uses its normalized position as direction; a point light
is placed relative to the object local frame,
normalize(light.position + uAttributes.position - vWsPosition). -/
noncomputable def getLightDirection (uAttributes : Attributes)
    (vWsPosition : Vec3) (light : Light) : Vec3 :=
  if light.type = LIGHT_TYPE_DIRECTIONAL then
    Vec3.normalize light.position
  else
    Vec3.normalize (light.position + uAttributes.position - vWsPosition)

/-- Function  getLightColor  of src/unnamed/part_000 lines 64-66:
sRGBToLinear(vec4(light.color, 1.0)).rgb * light.intensity. -/
noncomputable def getLightColor (light : Light) : Vec3 :=
  ((sRGBToLinear (Vec4.ofVec3 light.color 1)).rgb).smulR light.intensity

/-- The Cook-Torrance denominator of src/unnamed/part_000 line 122:
4.0 * max(dot(N, V), 0.0) * max(dot(N, L), 0.0), used UNCLAMPED as divisor
of the specular term on line 123. -/
def specularDenominator (N V L : Vec3) : ℝ :=
  4 * max (Vec3.dot N V) 0 * max (Vec3.dot N L) 0

/-- Body of the light loop of  main  in src/unnamed/part_000 lines 110-135:
the contribution of one light to the irradiance accumulator. -/
noncomputable def shadeLight (uAttributes : Attributes)
    (vWsPosition N V albedo : Vec3) (metallic roughness : ℝ) (F0 : Vec3)
    (light : Light) : Vec3 :=
  let L := getLightDirection uAttributes vWsPosition light
  let H := Vec3.normalize (V + L)
  let radiance := getLightColor light
  let D := DistributionGGX N H roughness
  let F := FresnelSchlick (max (Vec3.dot H V) 0) F0
  let G := GeometrySmith N V L roughness
  let numerator := F.smulR (D * G)
  let specular := numerator.divScalar (specularDenominator N V L)
  let diffuse := diffuseTerm F albedo metallic
  let NdotL := max (Vec3.dot N L) 0
  ((diffuse + specular) * radiance).smulR NdotL

/-- Function  main  of src/unnamed/part_000 lines 97-139.  The uniform
array  uLights[LIGHT_COUNT]  with its engine controlled  LIGHT_COUNT
define is modelled as a list, the for loop over the light indices as a
fold over that list. -/
noncomputable def main (uAttributes : Attributes) (uLights : List Light)
    (vWsPosition vWsNormal vWsViewPosition : Vec3) : Vec4 :=
  let N := Vec3.normalize vWsNormal
  let V := Vec3.normalize (vWsViewPosition - vWsPosition)
  let albedo := (sRGBToLinear (Vec4.ofVec3 uAttributes.albedo 1)).rgb
  let metallic := uAttributes.metallic
  let roughness := uAttributes.roughness
  let F0 := Vec3.mix (Vec3.splat 0.04) albedo metallic
  let irradiance := uLights.foldl
    (fun acc light =>
      acc + shadeLight uAttributes vWsPosition N V albedo metallic roughness
        F0 light)
    Vec3.zero
  Vec4.ofVec3 irradiance 1

end BaseFrag

namespace BaseVert

/-- Line 105 of src/src/shader/pbr.vert.ts (second, base variant, vertex
shader):  vWsNormal = normalize(in_normal) * 0.5 + 0.5 . -/
noncomputable def vWsNormal (in_normal : Vec3) : Vec3 :=
  (Vec3.normalize in_normal).smulR 0.5 + Vec3.splat 0.5

end BaseVert

namespace IblFrag

/-- Struct  Material  of src/unnamed/part_001 lines 20-25. -/
structure Material where
  albedo : Vec3
  metallic : ℝ
  roughness : ℝ

/-- Uniform struct  LightProperties  of src/unnamed/part_001 lines 34-41. -/
structure LightProperties where
  type : ℤ
  position : Vec3
  direction : Vec3
  color : Vec3
  intensity : ℝ

/-- Define  LIGHT_TYPE_DIRECTIONAL  of src/unnamed/part_001 line 5; the
engine overwrites it with the same value (LightType.DIRECTIONAL = 0 in
src/unnamed/part_002). -/
def LIGHT_TYPE_DIRECTIONAL : ℤ := 0

/-- Define  LIGHT_TYPE_POINT  of src/unnamed/part_001 line 6; the engine
overwrites it with the same value (LightType.POINT = 1). -/
def LIGHT_TYPE_POINT : ℤ := 1

/-- Function  get_light_dir  of src/unnamed/part_001 lines 71-77.  A light
whose type tag is neither directional nor point falls through to the final
else branch and yields  vec3(0.0) . -/
noncomputable def get_light_dir (light : LightProperties)
    (wsPosition : Vec3) : Vec3 :=
  if light.type = LIGHT_TYPE_DIRECTIONAL then
    Vec3.normalize light.direction
  else if light.type = LIGHT_TYPE_POINT then
    Vec3.normalize (light.position - wsPosition)
  else
    Vec3.zero

/-- Function  get_light_color  of src/unnamed/part_001 lines 79-81:
light.color * light.intensity, WITHOUT any sRGB to linear conversion. -/
def get_light_color (light : LightProperties) (wsPosition : Vec3) : Vec3 :=
  light.color.smulR light.intensity

/-- Function  RGBMToRGB  of src/unnamed/part_001 lines 109-111. -/
def RGBMToRGB (rgbm : Vec4) (rangeMultiplier : ℝ) : Vec3 :=
  (rgbm.rgb).smulR (rgbm.w * rangeMultiplier)

/-- Function  getSpecularColor  of src/unnamed/part_001 lines 113-115: the
specular IBL stub always returns  vec3(0.0) . -/
def getSpecularColor (R : Vec3) (roughness : ℝ) : Vec3 :=
  Vec3.zero

/-- The clamped Cook-Torrance divisor of src/unnamed/part_001 line 144:
max(4.0 * max(dot(N, V), 0.0) * max(dot(N, L), 0.0), 0.001). -/
def specularDivisor (N V L : Vec3) : ℝ :=
  max (4 * max (Vec3.dot N V) 0 * max (Vec3.dot N L) 0) 0.001

/-- Body of the light loop of  main  in src/unnamed/part_001 lines 130-157:
the contribution of one light to the irradiance accumulator. -/
noncomputable def shadeLight (vWsPosition N V albedo : Vec3)
    (metallic roughness : ℝ) (f0 : Vec3) (light : LightProperties) : Vec3 :=
  let L := get_light_dir light vWsPosition
  let H := Vec3.normalize (V + L)
  let radiance := get_light_color light vWsPosition
  let D := DistributionGGX N H roughness
  let F := FresnelSchlick (max (Vec3.dot H V) 0) f0
  let G := GeometrySmith N V L roughness
  let numerator := F.smulR (D * G)
  let specular := numerator.divScalar (specularDivisor N V L)
  let diffuse := diffuseTerm F albedo metallic
  let NdotL := max (Vec3.dot N L) 0
  ((diffuse + specular) * radiance).smulR NdotL

/-- The equirectangular UV computation of  main  in src/unnamed/part_001
lines 162-165:  diffuseUV = cartesianToPolar(N); then
diffuseUV = diffuseUV / vec2(PI, PI / 2.0) + vec2(0.5, 0.5) , annotated in
the source as remapping x from [-PI, PI] to [0, 1] and y from
[-PI/2, PI/2] to [0, 1]. -/
noncomputable def diffuseUV (N : Vec3) : Vec2 :=
  let uv := cartesianToPolar N
  ⟨uv.x / PI + 0.5, uv.y / (PI / 2) + 0.5⟩

/-- Function  main  of src/unnamed/part_001 lines 117-173.  The diffuse
environment sampler  uEnvironment.diffuse  is modelled as a function from
UV coordinates to RGBM texels. -/
noncomputable def main (material : Material) (uLights : List LightProperties)
    (envDiffuse : Vec2 → Vec4)
    (vWsNormal vWsViewDir vWsPosition : Vec3) : Vec4 :=
  let N := Vec3.normalize vWsNormal
  let V := Vec3.normalize vWsViewDir
  let R := Vec3.reflect (-V) N
  let albedo := (sRGBToLinear (Vec4.ofVec3 material.albedo 1)).rgb
  let f0 := Vec3.mix (Vec3.splat 0.04) albedo material.metallic
  let irradiance := uLights.foldl
    (fun acc light =>
      acc + shadeLight vWsPosition N V albedo material.metallic
        material.roughness f0 light)
    Vec3.zero
  let diffuseIBL := (RGBMToRGB (envDiffuse (diffuseUV N)) 6) * albedo
  let color := Vec3.zero + irradiance + diffuseIBL
  LinearTosRGB (Vec4.ofVec3 color 1)

end IblFrag

namespace App

/-- Host side light hierarchy of src/lights/lights (class PonctualLight
with subclasses DirectionalLight and PointLight, discriminated by
instanceof in src/unnamed/part_002); the constructor  otherLight  stands
for any further subclass, the unknown variant of the spec error taxonomy. -/
inductive PonctualLight where
  | directionalLight (directionWS : Vec3) (color : Vec3) (intensity : ℝ)
  | pointLight (positionWS : Vec3) (color : Vec3) (intensity : ℝ)
  | otherLight (color : Vec3) (intensity : ℝ)

/-- Tagged uniform value of the dotted path uniform map (spec section 3). -/
inductive UniformValue where
  | intVal (v : ℤ)
  | floatVal (v : ℝ)
  | vecVal (v : Vec3)

/-- Enum value  LightType.DIRECTIONAL  of src/unnamed/part_002 line 23. -/
def LightType_DIRECTIONAL : ℤ := 0

/-- Enum value  LightType.POINT  of src/unnamed/part_002 line 24. -/
def LightType_POINT : ℤ := 1

/-- True exactly for a light whose variant is neither directional nor
point. -/
def PonctualLight.isUnknown : PonctualLight → Bool
  | .otherLight _ _ => true
  | _ => false

/-- Loop body of Application.render in src/unnamed/part_002 lines 226-244
(first Application): writes the uLights[i] uniform entries for a
directional or point light and throws
Error("Unknown light type for light i.")  for any other variant; the
thrown exception is modelled as the error case of Except. -/
def lightUniforms (i : ℕ) (light : PonctualLight) :
    Except String (List (String × UniformValue)) :=
  let pre := "uLights[" ++ toString i ++ "]."
  match light with
  | .directionalLight d c intensity =>
      .ok [(pre ++ "type", .intVal LightType_DIRECTIONAL),
           (pre ++ "direction", .vecVal d),
           (pre ++ "color", .vecVal c),
           (pre ++ "intensity", .floatVal intensity)]
  | .pointLight p c intensity =>
      .ok [(pre ++ "type", .intVal LightType_POINT),
           (pre ++ "position", .vecVal p),
           (pre ++ "color", .vecVal c),
           (pre ++ "intensity", .floatVal intensity)]
  | .otherLight _ _ =>
      .error ("Unknown light type for light " ++ toString i ++ ".")

/-- The light uniform assembly loop of Application.render (first variant of
src/unnamed/part_002), from index i on; the first unknown light aborts the
whole loop with the thrown error. -/
def assembleLightsFrom (i : ℕ) :
    List PonctualLight → Except String (List (String × UniformValue))
  | [] => .ok []
  | light :: rest =>
      match lightUniforms i light with
      | .error e => .error e
      | .ok u =>
          match assembleLightsFrom (i + 1) rest with
          | .error e => .error e
          | .ok us => .ok (u ++ us)

/-- Effect skeleton of Application.render in src/unnamed/part_002 lines
198-260 (first variant): the light uniform loop runs first, so a thrown
Error aborts the frame before the per sphere loop issues any draw call;
on success one draw call is issued per sphere and their count is
returned. -/
def render (lights : List PonctualLight) (sphereCount : ℕ) :
    Except String ℕ :=
  match assembleLightsFrom 0 lights with
  | .error e => .error e
  | .ok _ => .ok sphereCount

end App

namespace ShaderCache

/-- Modelled from the spec: the Shader Program Cache of section 4.1 is not
under src/ (only its caller  compileProgram  appears in the three
Application variants), so its contract is modelled from the spec text: the
cache key combines the identity of both sources with the serialized define
set, and  getOrCompile  returns the cached handle on a key hit or compiles
once, records the new handle, and bumps a compilation counter on a miss.
CacheKey is that key. -/
structure CacheKey where
  vertexSource : String
  fragmentSource : String
  defines : List (String × ℤ)
deriving DecidableEq

/-- Modelled from the spec: the state of the Shader Program Cache; program
handles are allocated from the counter  nextHandle , and  compileCount  is
the compilation count counter that spec section 8 asks to observe. -/
structure ProgramCache where
  entries : List (CacheKey × ℕ)
  nextHandle : ℕ
  compileCount : ℕ

/-- Lookup of a cache key in the entry list. -/
def findProgram : List (CacheKey × ℕ) → CacheKey → Option ℕ
  | [], _ => none
  | e :: es, k => if e.1 = k then some e.2 else findProgram es k

/-- Modelled from the spec:  getOrCompile(vertexSource, fragmentSource,
defines) → ProgramHandle  of spec section 4.1; a key hit returns the cached
handle with the cache unchanged, a miss compiles (bumping compileCount),
stores the fresh handle under the key, and returns it. -/
def getOrCompile (cache : ProgramCache) (vertexSource fragmentSource : String)
    (defines : List (String × ℤ)) : ProgramCache × ℕ :=
  let key : CacheKey := ⟨vertexSource, fragmentSource, defines⟩
  match findProgram cache.entries key with
  | some handle => (cache, handle)
  | none =>
      (⟨(key, cache.nextHandle) :: cache.entries,
        cache.nextHandle + 1, cache.compileCount + 1⟩, cache.nextHandle)

/-- Well formedness of a cache state: every stored handle is below the
allocation counter, and two lookups returning the same handle come from
the same key. -/
def ProgramCache.WF (c : ProgramCache) : Prop :=
  (∀ e ∈ c.entries, e.2 < c.nextHandle) ∧
    ∀ k1 k2 h, findProgram c.entries k1 = some h →
      findProgram c.entries k2 = some h → k1 = k2

/-- A successful lookup comes from an entry of the list. -/
theorem findProgram_mem {es : List (CacheKey × ℕ)} {k : CacheKey} {h : ℕ}
    (hf : findProgram es k = some h) : (k, h) ∈ es := by
  induction es with
  | nil => simp [findProgram] at hf
  | cons e es ih =>
    by_cases he : e.1 = k
    · simp only [findProgram, if_pos he] at hf
      have h2 : e = (k, h) := by
        obtain ⟨e1, e2⟩ := e
        simp only at he
        simp only [Option.some.injEq] at hf
        rw [Prod.mk.injEq]
        exact ⟨he, hf⟩
      rw [h2]
      exact List.mem_cons_self _ _
    · simp only [findProgram, if_neg he] at hf
      exact List.mem_cons_of_mem _ (ih hf)

end ShaderCache

/-- Componentwise unfolding of vec3 addition. -/
@[simp] theorem Vec3.add_def (a b : Vec3) :
    a + b = ⟨a.x + b.x, a.y + b.y, a.z + b.z⟩ := rfl

/-- Componentwise unfolding of vec3 subtraction. -/
@[simp] theorem Vec3.sub_def (a b : Vec3) :
    a - b = ⟨a.x - b.x, a.y - b.y, a.z - b.z⟩ := rfl

/-- Componentwise unfolding of vec3 multiplication. -/
@[simp] theorem Vec3.mul_def (a b : Vec3) :
    a * b = ⟨a.x * b.x, a.y * b.y, a.z * b.z⟩ := rfl

/-- Componentwise unfolding of vec3 negation. -/
@[simp] theorem Vec3.neg_def (a : Vec3) :
    -a = ⟨-a.x, -a.y, -a.z⟩ := rfl

/-- C1 counterexample: at N = H = (0, 0, 1) and roughness = 1/2 the
fragment shader term  DistributionGGX  does not match the spec formula
D = alpha^2 / (PI * ((N.H)^2 * (alpha^2 - 1) + 1)^2)  with
alpha = roughness^2: the shader computes 4/pi, the spec formula 16/pi. -/
theorem distributionGGX_ne_spec_with_alpha_roughness_sq :
    DistributionGGX ⟨0, 0, 1⟩ ⟨0, 0, 1⟩ (1 / 2) ≠
      ggxSpecFormula (Vec3.dot ⟨0, 0, 1⟩ ⟨0, 0, 1⟩) ((1 / 2 : ℝ) ^ (2 : ℕ)) := by
  have hpi := Real.pi_pos
  have hdot : Vec3.dot ⟨0, 0, 1⟩ ⟨0, 0, 1⟩ = 1 := by norm_num [Vec3.dot]
  have hmax : max (1 : ℝ) 0 = 1 := max_eq_left (by norm_num)
  have hπ := Real.pi_ne_zero
  have hL : DistributionGGX ⟨0, 0, 1⟩ ⟨0, 0, 1⟩ (1 / 2) = 4 / Real.pi := by
    simp only [DistributionGGX, PI, hdot, hmax]
    norm_num
    field_simp
  have hR : ggxSpecFormula (Vec3.dot ⟨0, 0, 1⟩ ⟨0, 0, 1⟩) ((1 / 2 : ℝ) ^ (2 : ℕ)) =
      16 / Real.pi := by
    simp only [ggxSpecFormula, PI, hdot]
    norm_num
    field_simp
    ring
  rw [hL, hR]
  intro hcontra
  rw [div_eq_div_iff hpi.ne' hpi.ne'] at hcontra
  nlinarith

/-- C1 (amended): the shader term  DistributionGGX  equals the GGX formula
with alpha = roughness (so numerator and the alpha^2 of the denominator
equal roughness^2, not roughness^4) and with the inner product N.H clamped
to max(N.H, 0). -/
theorem distributionGGX_eq_ggx_with_alpha_roughness (N H : Vec3)
    (roughness : ℝ) :
    DistributionGGX N H roughness =
      ggxSpecFormula (max (Vec3.dot N H) 0) roughness := by
  simp only [DistributionGGX, ggxSpecFormula]
  ring

/-- C2 counterexample: in the richer (IBL) variant the per light radiance
is not  linearize(light.color) * light.intensity : for the point light with
color (0.04, 0.04, 0.04) and intensity 1 the shader returns the raw color,
which differs from its linearization. -/
theorem ibl_radiance_not_linearized :
    IblFrag.get_light_color ⟨1, ⟨0, 0, 0⟩, ⟨0, 0, 0⟩, ⟨0.04, 0.04, 0.04⟩, 1⟩
        ⟨0, 0, 0⟩ ≠
      ((sRGBToLinear (Vec4.ofVec3 ⟨0.04, 0.04, 0.04⟩ 1)).rgb).smulR 1 := by
  intro h
  have hx := congrArg Vec3.x h
  simp only [IblFrag.get_light_color, Vec3.smulR, sRGBToLinear,
    sRGBToLinearChannel, Vec4.ofVec3, Vec4.rgb] at hx
  norm_num at hx

/-- C2 (amended): the base variant resolves the per light radiance as
sRGBToLinear(vec4(light.color, 1)).rgb * light.intensity  (the piecewise
sRGB to linear transfer applied per channel), while the richer (IBL)
variant resolves it as the raw  light.color * light.intensity  with no
linearization. -/
theorem light_radiance_policies :
    (∀ light : BaseFrag.Light,
        BaseFrag.getLightColor light =
          ⟨sRGBToLinearChannel light.color.x * light.intensity,
            sRGBToLinearChannel light.color.y * light.intensity,
            sRGBToLinearChannel light.color.z * light.intensity⟩) ∧
      ∀ (light : IblFrag.LightProperties) (wsPosition : Vec3),
        IblFrag.get_light_color light wsPosition =
          light.color.smulR light.intensity := by
  exact ⟨fun light => rfl, fun light wsPosition => rfl⟩

/-- C3 counterexample: in the base variant the Cook-Torrance divisor is the
unclamped  4 * max(N.V, 0) * max(N.L, 0) ; at the grazing configuration
N = (0,0,1), V = (1,0,0), L = (0,1,0) it is exactly 0, not bounded below by
0.001, so the specular division there is a division by zero. -/
theorem base_specular_denominator_can_vanish :
    BaseFrag.specularDenominator ⟨0, 0, 1⟩ ⟨1, 0, 0⟩ ⟨0, 1, 0⟩ = 0 ∧
      ¬ (0.001 : ℝ) ≤
        BaseFrag.specularDenominator ⟨0, 0, 1⟩ ⟨1, 0, 0⟩ ⟨0, 1, 0⟩ := by
  constructor
  · norm_num [BaseFrag.specularDenominator, Vec3.dot]
  · norm_num [BaseFrag.specularDenominator, Vec3.dot]

/-- C3 (amended): in the richer (IBL) variant the Cook-Torrance divisor
max(4 * max(N.V, 0) * max(N.L, 0), 0.001)  is bounded below by 0.001 for
all N, V, L, so that variant never divides by zero; the base variant uses
the unclamped denominator. -/
theorem ibl_specular_divisor_bounded (N V L : Vec3) :
    (0.001 : ℝ) ≤ IblFrag.specularDivisor N V L :=
  le_max_right _ _

/-- C4: at the unit normal N = (-1, 0, 0) the equirectangular UV computed
by the IBL fragment shader has x coordinate phi/PI + 0.5 = 1.5, outside
[0, 1]; the code divides phi by PI where the remap to [0, 1] stated in its
own comment (and in the spec) requires dividing by 2*PI. -/
theorem diffuseUV_leaves_unit_square :
    (IblFrag.diffuseUV ⟨-1, 0, 0⟩).x = 1.5 ∧
      ¬ (IblFrag.diffuseUV ⟨-1, 0, 0⟩).x ≤ 1 := by
  have harg : atan2 (0 : ℝ) (-1) = Real.pi := by
    have hc : (⟨-1, 0⟩ : ℂ) = (-1 : ℂ) := by
      apply Complex.ext <;> simp
    rw [atan2, hc, Complex.arg_neg_one]
  have h1 : (IblFrag.diffuseUV ⟨-1, 0, 0⟩).x = 1.5 := by
    simp only [IblFrag.diffuseUV, cartesianToPolar, PI, harg]
    rw [div_self Real.pi_ne_zero]
    norm_num
  exact ⟨h1, by rw [h1]; norm_num⟩

/-- C8: with metallic = 1 the Lambertian diffuse term of the light loop,
kD * albedo / PI  with  kD = (1 - F) * (1 - metallic) , is exactly the zero
vector for every Fresnel value and every albedo. -/
theorem diffuse_zero_of_metallic_one (F albedo : Vec3) (metallic : ℝ)
    (h : metallic = 1) : diffuseTerm F albedo metallic = Vec3.zero := by
  subst h
  simp [diffuseTerm, Vec3.smulR, Vec3.splat, Vec3.zero, Vec3.divScalar]

/-- C8 witness: the diffuse term vanishes at a concrete metallic = 1
configuration. -/
theorem diffuse_zero_of_metallic_one_witness :
    diffuseTerm ⟨0.04, 0.04, 0.04⟩ ⟨1, 0.5, 0.25⟩ 1 = Vec3.zero :=
  diffuse_zero_of_metallic_one ⟨0.04, 0.04, 0.04⟩ ⟨1, 0.5, 0.25⟩ 1 rfl

/-- C9: with an empty light list (the LIGHT_COUNT = 0 case) the light loop
of the base fragment shader never runs, the irradiance accumulator stays
vec3(0), and main outputs vec4(0, 0, 0, 1); the list model reads no light
slot beyond the compiled count. -/
theorem base_main_empty_lights (uAttributes : BaseFrag.Attributes)
    (vWsPosition vWsNormal vWsViewPosition : Vec3) :
    BaseFrag.main uAttributes [] vWsPosition vWsNormal vWsViewPosition =
      ⟨0, 0, 0, 1⟩ := rfl

/-- The light uniform assembly loop fails as soon as the light list
contains a variant that is neither directional nor point. -/
theorem assembleLightsFrom_error :
    ∀ (lights : List App.PonctualLight) (i : ℕ),
      (∃ l ∈ lights, l.isUnknown = true) →
      ∃ msg, App.assembleLightsFrom i lights = Except.error msg := by
  intro lights
  induction lights with
  | nil =>
    intro i hmem
    simp at hmem
  | cons l ls ih =>
    intro i hmem
    obtain ⟨a, ha, hu⟩ := hmem
    rcases List.mem_cons.mp ha with rfl | hmem2
    · cases a with
      | otherLight c intensity =>
        exact ⟨"Unknown light type for light " ++ toString i ++ ".",
          by simp [App.assembleLightsFrom, App.lightUniforms]⟩
      | directionalLight d c intensity =>
        simp [App.PonctualLight.isUnknown] at hu
      | pointLight p c intensity =>
        simp [App.PonctualLight.isUnknown] at hu
    · obtain ⟨msg, hmsg⟩ := ih (i + 1) ⟨a, hmem2, hu⟩
      cases hl : App.lightUniforms i l with
      | error e => exact ⟨e, by simp [App.assembleLightsFrom, hl]⟩
      | ok u => exact ⟨msg, by simp [App.assembleLightsFrom, hl, hmsg]⟩

/-- C5 (amended): a light whose variant tag is neither point nor
directional makes Application.render of the IBL variant throw
UnknownLightType while assembling the light uniforms, before any draw call
is issued; the fragment shader itself, however, maps an unrecognized type
tag to the zero light direction, which forces a zero (black) contribution
for that light were it ever reached (see the counterexample theorem). -/
theorem unknown_light_fatal_before_draw (lights : List App.PonctualLight)
    (sphereCount : ℕ) (hmem : ∃ l ∈ lights, l.isUnknown = true) :
    ∃ msg, App.render lights sphereCount = Except.error msg := by
  obtain ⟨msg, hmsg⟩ := assembleLightsFrom_error lights 0 hmem
  exact ⟨msg, by simp [App.render, hmsg]⟩

/-- C5 witness: a concrete frame with a directional light followed by an
unrecognized light aborts with an error and issues no draw call. -/
theorem unknown_light_fatal_before_draw_witness :
    ∃ msg, App.render
        [App.PonctualLight.directionalLight ⟨1, 1, 1⟩ ⟨1, 1, 1⟩ 1,
          App.PonctualLight.otherLight ⟨1, 1, 1⟩ 1] 25 =
      Except.error msg :=
  unknown_light_fatal_before_draw _ 25
    ⟨App.PonctualLight.otherLight ⟨1, 1, 1⟩ 1,
      List.mem_cons_of_mem _ (List.mem_cons_self _ _), rfl⟩

/-- C5 counterexample: the IBL fragment shader does hold a forced zero
fallback for an unrecognized light type tag:  get_light_dir  returns
vec3(0) for type tag 2, and the per light loop contribution of such a
light is exactly the zero (black) color, for a concrete nonzero radiance
configuration. -/
theorem unknown_light_shades_black :
    IblFrag.get_light_dir ⟨2, ⟨1, 2, 3⟩, ⟨4, 5, 6⟩, ⟨1, 1, 1⟩, 3⟩ ⟨0, 0, 0⟩ =
        Vec3.zero ∧
      IblFrag.shadeLight ⟨0, 0, 0⟩ ⟨0, 0, 1⟩ ⟨0, 0, 1⟩ ⟨1, 1, 1⟩ 0 1
          ⟨0.04, 0.04, 0.04⟩ ⟨2, ⟨1, 2, 3⟩, ⟨4, 5, 6⟩, ⟨1, 1, 1⟩, 3⟩ =
        Vec3.zero := by
  have hdir : IblFrag.get_light_dir
      ⟨2, ⟨1, 2, 3⟩, ⟨4, 5, 6⟩, ⟨1, 1, 1⟩, 3⟩ ⟨0, 0, 0⟩ = Vec3.zero := by
    norm_num [IblFrag.get_light_dir, IblFrag.LIGHT_TYPE_DIRECTIONAL,
      IblFrag.LIGHT_TYPE_POINT]
  refine ⟨hdir, ?_⟩
  simp only [IblFrag.shadeLight, hdir]
  have hd : Vec3.dot ⟨0, 0, 1⟩ Vec3.zero = 0 := by
    norm_num [Vec3.dot, Vec3.zero]
  rw [hd]
  simp [Vec3.smulR, Vec3.zero]

/-- C6: over any well formed cache state, two sequential getOrCompile
calls with the same source pair and distinct define sets return distinct
program handles, while repeating a call with the same define set returns
the identical cached handle and leaves the compilation counter unchanged
(no recompilation). -/
theorem getOrCompile_cache_correct (c0 : ShaderCache.ProgramCache)
    (vs fs : String) (D1 D2 : List (String × ℤ))
    (hwf : c0.WF) (hne : D1 ≠ D2) :
    (ShaderCache.getOrCompile c0 vs fs D1).2 ≠
        (ShaderCache.getOrCompile
          (ShaderCache.getOrCompile c0 vs fs D1).1 vs fs D2).2 ∧
      (ShaderCache.getOrCompile
          (ShaderCache.getOrCompile c0 vs fs D1).1 vs fs D1).2 =
        (ShaderCache.getOrCompile c0 vs fs D1).2 ∧
      (ShaderCache.getOrCompile
          (ShaderCache.getOrCompile c0 vs fs D1).1 vs fs D1).1.compileCount =
        (ShaderCache.getOrCompile c0 vs fs D1).1.compileCount := by
  have hkey : (⟨vs, fs, D1⟩ : ShaderCache.CacheKey) ≠ ⟨vs, fs, D2⟩ := by
    intro hk
    exact hne (congrArg ShaderCache.CacheKey.defines hk)
  cases h1 : ShaderCache.findProgram c0.entries ⟨vs, fs, D1⟩ with
  | some v =>
    have hv : v < c0.nextHandle := hwf.1 _ (ShaderCache.findProgram_mem h1)
    refine ⟨?_, ?_, ?_⟩
    · cases h2 : ShaderCache.findProgram c0.entries ⟨vs, fs, D2⟩ with
      | some w =>
        have hvw : v ≠ w := by
          intro hvw
          exact hkey (hwf.2 _ _ _ h1 (hvw ▸ h2))
        simp [ShaderCache.getOrCompile, h1, h2]
        exact hvw
      | none =>
        simp [ShaderCache.getOrCompile, h1, h2]
        exact hv.ne
    · simp [ShaderCache.getOrCompile, h1]
    · simp [ShaderCache.getOrCompile, h1]
  | none =>
    refine ⟨?_, ?_, ?_⟩
    · cases h2 : ShaderCache.findProgram c0.entries ⟨vs, fs, D2⟩ with
      | some w =>
        have hw : w < c0.nextHandle := hwf.1 _ (ShaderCache.findProgram_mem h2)
        simp [ShaderCache.getOrCompile, h1, ShaderCache.findProgram,
          hne, h2]
        exact hw.ne'
      | none =>
        simp [ShaderCache.getOrCompile, h1, ShaderCache.findProgram,
          hne, h2]
    · simp [ShaderCache.getOrCompile, h1, ShaderCache.findProgram]
    · simp [ShaderCache.getOrCompile, h1, ShaderCache.findProgram]

/-- C6 witness: from the empty cache, compiling with defines [("A", 1)]
and then with the empty define set yields distinct handles, and repeating
the first call returns its handle without a second compilation. -/
theorem getOrCompile_cache_correct_witness :
    (ShaderCache.getOrCompile ⟨[], 0, 0⟩ "v" "f" [("A", 1)]).2 ≠
        (ShaderCache.getOrCompile
          (ShaderCache.getOrCompile ⟨[], 0, 0⟩ "v" "f" [("A", 1)]).1
          "v" "f" []).2 ∧
      (ShaderCache.getOrCompile
          (ShaderCache.getOrCompile ⟨[], 0, 0⟩ "v" "f" [("A", 1)]).1
          "v" "f" [("A", 1)]).2 =
        (ShaderCache.getOrCompile ⟨[], 0, 0⟩ "v" "f" [("A", 1)]).2 ∧
      (ShaderCache.getOrCompile
          (ShaderCache.getOrCompile ⟨[], 0, 0⟩ "v" "f" [("A", 1)]).1
          "v" "f" [("A", 1)]).1.compileCount =
        (ShaderCache.getOrCompile ⟨[], 0, 0⟩ "v" "f" [("A", 1)]).1.compileCount :=
  getOrCompile_cache_correct ⟨[], 0, 0⟩ "v" "f" [("A", 1)] []
    ⟨by simp, by intro k1 k2 h hk1 hk2; simp [ShaderCache.findProgram] at hk1⟩
    (by simp)

/-- Two vec3 values with equal components are equal. -/
@[ext] theorem Vec3.ext {a b : Vec3} (hx : a.x = b.x) (hy : a.y = b.y)
    (hz : a.z = b.z) : a = b := by
  cases a
  cases b
  simp_all

/-- C10: in the base variant the vertex stage writes
vWsNormal = normalize(in_normal) * 0.5 + 0.5, so the shading normal
N = normalize(vWsNormal) used by the fragment stage equals
normalize(normalize(n) * 0.5 + 0.5); for every input normal n that is not
proportional to (1, 1, 1) this differs from the unit geometric normal
normalize(n). -/
theorem base_variant_shading_normal_biased (n : Vec3)
    (h : ¬ ∃ c : ℝ, n = Vec3.splat c) :
    Vec3.normalize (BaseVert.vWsNormal n) =
        Vec3.normalize ((Vec3.normalize n).smulR 0.5 + Vec3.splat 0.5) ∧
      Vec3.normalize (BaseVert.vWsNormal n) ≠ Vec3.normalize n := by
  refine ⟨rfl, ?_⟩
  intro heq
  have hnz : ¬ (n.x = 0 ∧ n.y = 0 ∧ n.z = 0) := by
    rintro ⟨hx0, hy0, hz0⟩
    refine h ⟨0, ?_⟩
    ext <;> simp [Vec3.splat, hx0, hy0, hz0]
  have hq0 : 0 ≤ Vec3.dot n n := by
    simp only [Vec3.dot]
    exact add_nonneg (add_nonneg (mul_self_nonneg _) (mul_self_nonneg _))
      (mul_self_nonneg _)
  have hqpos : 0 < Vec3.dot n n := by
    rcases hq0.lt_or_eq with h1 | h1
    · exact h1
    · exfalso
      apply hnz
      have h1 : Vec3.dot n n = 0 := h1.symm
      simp only [Vec3.dot] at h1
      have hx2 : n.x * n.x = 0 :=
        le_antisymm (by nlinarith [mul_self_nonneg n.y, mul_self_nonneg n.z])
          (mul_self_nonneg n.x)
      have hy2 : n.y * n.y = 0 :=
        le_antisymm (by nlinarith [mul_self_nonneg n.x, mul_self_nonneg n.z])
          (mul_self_nonneg n.y)
      have hz2 : n.z * n.z = 0 :=
        le_antisymm (by nlinarith [mul_self_nonneg n.x, mul_self_nonneg n.y])
          (mul_self_nonneg n.z)
      exact ⟨mul_self_eq_zero.mp hx2, mul_self_eq_zero.mp hy2,
        mul_self_eq_zero.mp hz2⟩
  have hs : 0 < Vec3.length n := Real.sqrt_pos.mpr hqpos
  have hss : Vec3.length n * Vec3.length n = Vec3.dot n n :=
    Real.mul_self_sqrt hq0
  obtain ⟨ux, hux⟩ : ∃ ux, n.x / Vec3.length n = ux := ⟨_, rfl⟩
  obtain ⟨uy, huy⟩ : ∃ uy, n.y / Vec3.length n = uy := ⟨_, rfl⟩
  obtain ⟨uz, huz⟩ : ∃ uz, n.z / Vec3.length n = uz := ⟨_, rfl⟩
  have hnx : n.x = ux * Vec3.length n := (div_eq_iff hs.ne').mp hux
  have hny : n.y = uy * Vec3.length n := (div_eq_iff hs.ne').mp huy
  have hnz3 : n.z = uz * Vec3.length n := (div_eq_iff hs.ne').mp huz
  have hunit : ux * ux + uy * uy + uz * uz = 1 := by
    rw [← hux, ← huy, ← huz]
    rw [div_mul_div_comm, div_mul_div_comm, div_mul_div_comm, hss]
    rw [div_add_div_same, div_add_div_same]
    simp only [Vec3.dot]
    exact div_self hqpos.ne'
  have hWx : (BaseVert.vWsNormal n).x = ux * 0.5 + 0.5 := by
    simp [BaseVert.vWsNormal, Vec3.normalize, Vec3.divScalar,
      Vec3.smulR, Vec3.splat, hux]
  have hWy : (BaseVert.vWsNormal n).y = uy * 0.5 + 0.5 := by
    simp [BaseVert.vWsNormal, Vec3.normalize, Vec3.divScalar,
      Vec3.smulR, Vec3.splat, huy]
  have hWz : (BaseVert.vWsNormal n).z = uz * 0.5 + 0.5 := by
    simp [BaseVert.vWsNormal, Vec3.normalize, Vec3.divScalar,
      Vec3.smulR, Vec3.splat, huz]
  have hx := congrArg Vec3.x heq
  have hy := congrArg Vec3.y heq
  have hz := congrArg Vec3.z heq
  simp only [Vec3.normalize, Vec3.divScalar] at hx hy hz
  rw [hWx, hux] at hx
  rw [hWy, huy] at hy
  rw [hWz, huz] at hz
  rcases eq_or_ne (Vec3.length (BaseVert.vWsNormal n)) 0 with hT | hT
  · rw [hT, div_zero] at hx hy hz
    rw [← hx, ← hy, ← hz] at hunit
    norm_num at hunit
  · rw [div_eq_iff hT] at hx hy hz
    have hx2 : ux * (Vec3.length (BaseVert.vWsNormal n) - 0.5) = 0.5 := by
      linear_combination -hx
    have hy2 : uy * (Vec3.length (BaseVert.vWsNormal n) - 0.5) = 0.5 := by
      linear_combination -hy
    have hz2 : uz * (Vec3.length (BaseVert.vWsNormal n) - 0.5) = 0.5 := by
      linear_combination -hz
    have hTne : Vec3.length (BaseVert.vWsNormal n) - 0.5 ≠ 0 := by
      intro h0
      rw [h0, mul_zero] at hx2
      norm_num at hx2
    have huxy : ux = uy := mul_right_cancel₀ hTne (hx2.trans hy2.symm)
    have huxz : ux = uz := mul_right_cancel₀ hTne (hx2.trans hz2.symm)
    refine h ⟨ux * Vec3.length n, ?_⟩
    ext
    · simpa [Vec3.splat] using hnx
    · simp only [Vec3.splat]
      rw [hny, ← huxy]
    · simp only [Vec3.splat]
      rw [hnz3, ← huxz]

/-- C10 witness: for the concrete input normal (1, 0, 0) the base variant
shading normal is normalize((1, 0.5, 0.5)), which is not the geometric
normal (1, 0, 0). -/
theorem base_variant_shading_normal_biased_witness :
    Vec3.normalize (BaseVert.vWsNormal ⟨1, 0, 0⟩) =
        Vec3.normalize ((Vec3.normalize ⟨1, 0, 0⟩).smulR 0.5 + Vec3.splat 0.5) ∧
      Vec3.normalize (BaseVert.vWsNormal ⟨1, 0, 0⟩) ≠
        Vec3.normalize ⟨1, 0, 0⟩ :=
  base_variant_shading_normal_biased ⟨1, 0, 0⟩ (by
    rintro ⟨c, hc⟩
    have h1 := congrArg Vec3.x hc
    have h2 := congrArg Vec3.y hc
    simp only [Vec3.splat] at h1 h2
    rw [← h1] at h2
    norm_num at h2)

/-- Bridge from natural powers to rational rpow exponents: if the pth
power of a is below the qth power of c then a to the power p/q is below
c. -/
theorem rpow_le_of_pow_le (a c e : ℝ) (p q : ℕ) (ha : 0 ≤ a) (hc : 0 ≤ c)
    (hq : q ≠ 0) (he : e * (q : ℝ) = (p : ℝ)) (hpow : a ^ p ≤ c ^ q) :
    a ^ e ≤ c := by
  refine le_of_pow_le_pow_left hq hc ?_
  have h2 : (a ^ e) ^ q = a ^ p := by
    rw [← Real.rpow_natCast (a ^ e) q, ← Real.rpow_mul ha, he,
      Real.rpow_natCast]
  rw [h2]
  exact hpow

/-- Bridge from natural powers to rational rpow exponents, lower bound
version. -/
theorem le_rpow_of_pow_le (a c e : ℝ) (p q : ℕ) (ha : 0 ≤ a)
    (hq : q ≠ 0) (he : e * (q : ℝ) = (p : ℝ)) (hpow : c ^ q ≤ a ^ p) :
    c ≤ a ^ e := by
  refine le_of_pow_le_pow_left hq (Real.rpow_nonneg ha e) ?_
  have h2 : (a ^ e) ^ q = a ^ p := by
    rw [← Real.rpow_natCast (a ^ e) q, ← Real.rpow_mul ha, he,
      Real.rpow_natCast]
  rw [h2]
  exact hpow

/-- On (0, 1] the function y * (-log y) is bounded by 1/e. -/
theorem neg_mul_log_le_inv_e (y : ℝ) (h0 : 0 < y) (h1 : y ≤ 1) :
    y * (- Real.log y) ≤ 1 / Real.exp 1 := by
  have hlog : - Real.log y = Real.log (1 / y) := by
    rw [one_div, Real.log_inv]
  have hle : Real.log (1 / y) ≤ (1 / y) / Real.exp 1 := by
    have h2 : Real.log ((1 / y) / Real.exp 1) ≤ (1 / y) / Real.exp 1 - 1 :=
      Real.log_le_sub_one_of_pos (by positivity)
    have h3 : Real.log ((1 / y) / Real.exp 1) = Real.log (1 / y) - 1 := by
      rw [Real.log_div (by positivity) (Real.exp_pos 1).ne', Real.log_exp]
    linarith
  calc y * (- Real.log y) = y * Real.log (1 / y) := by rw [hlog]
    _ ≤ y * ((1 / y) / Real.exp 1) := by
        exact mul_le_mul_of_nonneg_left hle h0.le
    _ = 1 / Real.exp 1 := by field_simp

/-- The exponent 0.999984 = 0.41666 * 2.4 is so close to 1 that raising
any x of (0, 1] to it moves x by at most 0.000006 upward. -/
theorem rpow_near_one_bounds (x : ℝ) (h0 : 0 < x) (h1 : x ≤ 1) :
    x ≤ x ^ (0.999984 : ℝ) ∧ x ^ (0.999984 : ℝ) ≤ x + 0.000006 := by
  constructor
  · have h2 := Real.rpow_le_rpow_of_exponent_ge h0 h1
      (show (0.999984 : ℝ) ≤ 1 by norm_num)
    rwa [Real.rpow_one] at h2
  · have hxc_pos : 0 < x ^ (0.999984 : ℝ) := Real.rpow_pos_of_pos h0 _
    have hxc_le1 : x ^ (0.999984 : ℝ) ≤ 1 :=
      Real.rpow_le_one h0.le h1 (by norm_num)
    have hsplit : x ^ (0.999984 : ℝ) * x ^ (1 - 0.999984 : ℝ) = x := by
      rw [← Real.rpow_add h0]
      norm_num
    have hexp : x ^ (1 - 0.999984 : ℝ) =
        Real.exp ((1 - 0.999984) * Real.log x) := by
      rw [Real.rpow_def_of_pos h0, mul_comm]
    have hone : 1 - Real.exp ((1 - 0.999984) * Real.log x) ≤
        (1 - 0.999984) * (- Real.log x) := by
      have h2 := Real.add_one_le_exp ((1 - 0.999984) * Real.log x)
      linarith
    have hstep : x ^ (0.999984 : ℝ) - x ≤
        (1 - 0.999984) * (x ^ (0.999984 : ℝ) * (- Real.log x)) := by
      have h2 : x ^ (0.999984 : ℝ) - x =
          x ^ (0.999984 : ℝ) * (1 - x ^ (1 - 0.999984 : ℝ)) := by
        rw [mul_sub, mul_one, hsplit]
      rw [h2, hexp]
      have h3 := mul_le_mul_of_nonneg_left hone hxc_pos.le
      calc x ^ (0.999984 : ℝ) *
            (1 - Real.exp ((1 - 0.999984) * Real.log x)) ≤
          x ^ (0.999984 : ℝ) * ((1 - 0.999984) * (- Real.log x)) := h3
        _ = (1 - 0.999984) * (x ^ (0.999984 : ℝ) * (- Real.log x)) := by ring
    have hlogy : Real.log (x ^ (0.999984 : ℝ)) = 0.999984 * Real.log x :=
      Real.log_rpow h0 _
    have hyly := neg_mul_log_le_inv_e (x ^ (0.999984 : ℝ)) hxc_pos hxc_le1
    have h4 : x ^ (0.999984 : ℝ) * (- Real.log x) =
        (x ^ (0.999984 : ℝ) * (- Real.log (x ^ (0.999984 : ℝ)))) / 0.999984 := by
      rw [hlogy]
      field_simp
      ring
    have he : (2.71 : ℝ) ≤ Real.exp 1 := by
      have h5 := Real.exp_one_gt_d9
      linarith
    have hinv : 1 / Real.exp 1 ≤ 1 / 2.71 :=
      one_div_le_one_div_of_le (by norm_num) he
    have h6 : x ^ (0.999984 : ℝ) * (- Real.log x) ≤ (1 / 2.71) / 0.999984 := by
      rw [h4]
      have h7 : x ^ (0.999984 : ℝ) * (- Real.log (x ^ (0.999984 : ℝ))) ≤
          1 / 2.71 := le_trans hyly hinv
      exact div_le_div_of_nonneg_right h7 (by norm_num)
    nlinarith [hstep, h6]

/-- Relative slack of replacing the shader exponent 0.41666 by the
rational 5/12: over [0.0031308, 1] the two powers agree within the factor
1.00004. -/
theorem rpow_snug (w : ℝ) (hlo : (0.0031308 : ℝ) ≤ w) (hhi : w ≤ 1) :
    w ^ ((5 : ℝ) / 12) ≤ w ^ (0.41666 : ℝ) ∧
      w ^ (0.41666 : ℝ) ≤ 1.00004 * w ^ ((5 : ℝ) / 12) := by
  have hw0 : 0 < w := lt_of_lt_of_le (by norm_num) hlo
  constructor
  · exact Real.rpow_le_rpow_of_exponent_ge hw0 hhi (by norm_num)
  · have hsplit : (0.41666 : ℝ) = (5 : ℝ) / 12 + (-(1 / 150000)) := by
      norm_num
    rw [hsplit, Real.rpow_add hw0]
    have h5 : 0 ≤ w ^ ((5 : ℝ) / 12) := Real.rpow_nonneg hw0.le _
    have hA : (320 : ℝ) ≤ 1.00004 ^ (150000 : ℕ) := by
      have hB : (1.05 : ℝ) ≤ 1.00004 ^ (1250 : ℕ) := by
        have h2 := one_add_mul_le_pow
          (show (-2 : ℝ) ≤ 0.00004 by norm_num) 1250
        have h3 : (1 : ℝ) + (1250 : ℕ) * 0.00004 = 1.05 := by
          push_cast
          norm_num
        have h4 : ((1 : ℝ) + 0.00004) = 1.00004 := by norm_num
        rw [h3, h4] at h2
        exact h2
      have hC : (1.05 : ℝ) ^ (120 : ℕ) ≤ (1.00004 ^ (1250 : ℕ)) ^ (120 : ℕ) :=
        pow_le_pow_left (by norm_num) hB 120
      have hD : ((1.00004 : ℝ) ^ (1250 : ℕ)) ^ (120 : ℕ) =
          1.00004 ^ (150000 : ℕ) := by
        rw [← pow_mul]
      have hE : (320 : ℝ) ≤ 1.05 ^ (120 : ℕ) := by norm_num
      calc (320 : ℝ) ≤ 1.05 ^ (120 : ℕ) := hE
        _ ≤ (1.00004 ^ (1250 : ℕ)) ^ (120 : ℕ) := hC
        _ = 1.00004 ^ (150000 : ℕ) := hD
    have hge : (1 / 1.00004 : ℝ) ≤ w ^ ((1 : ℝ) / 150000) := by
      have h1 : (1 / 1.00004 : ℝ) ≤ (0.0031308 : ℝ) ^ ((1 : ℝ) / 150000) := by
        apply le_rpow_of_pow_le 0.0031308 (1 / 1.00004) ((1 : ℝ) / 150000)
          1 150000 (by norm_num) (by norm_num) (by push_cast; norm_num)
        have h2 : ((1 : ℝ) / 1.00004) ^ (150000 : ℕ) =
            1 / 1.00004 ^ (150000 : ℕ) := by
          rw [div_pow, one_pow]
        rw [h2, pow_one]
        have h3 : (1 : ℝ) / 1.00004 ^ (150000 : ℕ) ≤ 1 / 320 :=
          one_div_le_one_div_of_le (by norm_num) hA
        exact le_trans h3 (by norm_num)
      calc (1 / 1.00004 : ℝ) ≤ (0.0031308 : ℝ) ^ ((1 : ℝ) / 150000) := h1
        _ ≤ w ^ ((1 : ℝ) / 150000) :=
            Real.rpow_le_rpow (by norm_num) hlo (by norm_num)
    have hbound : w ^ (-(1 / 150000 : ℝ)) ≤ 1.00004 := by
      rw [Real.rpow_neg hw0.le]
      have h2 : (0 : ℝ) < 1 / 1.00004 := by norm_num
      have h3 := inv_le_inv_of_le h2 hge
      calc (w ^ (1 / 150000 : ℝ))⁻¹ ≤ ((1 : ℝ) / 1.00004)⁻¹ := h3
        _ = 1.00004 := by norm_num
    calc w ^ ((5 : ℝ) / 12) * w ^ (-(1 / 150000 : ℝ)) ≤
        w ^ ((5 : ℝ) / 12) * 1.00004 :=
          mul_le_mul_of_nonneg_left hbound h5
      _ = 1.00004 * w ^ ((5 : ℝ) / 12) := mul_comm _ _

/-- Rational lower bound for the shader joint: 0.0031308 ^ (5/12) is at
least 0.0904738. -/
theorem joint_rpow_lb : (0.0904738 : ℝ) ≤ (0.0031308 : ℝ) ^ ((5 : ℝ) / 12) :=
  le_rpow_of_pow_le 0.0031308 0.0904738 ((5 : ℝ) / 12) 5 12 (by norm_num)
    (by norm_num) (by push_cast; norm_num) (by norm_num)

set_option maxHeartbeats 1000000 in
/-- Round trip linear -> sRGB -> linear: composing the shader pair
LinearTosRGB then sRGBToLinear reproduces the input channel within 1e-4
on [0, 1]. -/
theorem roundtrip_encode_then_linearize (x : ℝ) (h0 : 0 ≤ x) (h1 : x ≤ 1) :
    |sRGBToLinearChannel (LinearTosRGBChannel x) - x| ≤ 0.0001 := by
  rw [abs_le]
  by_cases hA : x ≤ 0.0031308
  · simp only [LinearTosRGBChannel]
    rw [if_pos hA]
    have hB : x * 12.92 ≤ 0.04045 := by nlinarith
    simp only [sRGBToLinearChannel]
    rw [if_pos hB]
    constructor <;> nlinarith
  · push_neg at hA
    simp only [LinearTosRGBChannel]
    rw [if_neg (not_le.mpr hA)]
    have hxpos : (0 : ℝ) < x := lt_trans (by norm_num) hA
    have hu1 : x ^ (0.41666 : ℝ) ≤ 1 := Real.rpow_le_one h0 h1 (by norm_num)
    have h512b : (0.0031308 : ℝ) ^ ((5 : ℝ) / 12) ≤ x ^ ((5 : ℝ) / 12) :=
      Real.rpow_le_rpow (by norm_num) hA.le (by norm_num)
    have h512c : x ^ ((5 : ℝ) / 12) ≤ x ^ (0.41666 : ℝ) :=
      Real.rpow_le_rpow_of_exponent_ge hxpos h1 (by norm_num)
    have hu0 : (0.0904738 : ℝ) ≤ x ^ (0.41666 : ℝ) :=
      le_trans joint_rpow_lb (le_trans h512b h512c)
    by_cases hB : x ^ (0.41666 : ℝ) * 1.055 - 0.055 ≤ 0.04045
    · simp only [sRGBToLinearChannel]
      rw [if_pos hB]
      have hub5 : x ^ ((5 : ℝ) / 12) ≤ 0.09047394 := by
        nlinarith [h512c, hB]
      have hxub : x ≤ 0.0031309 := by
        have hxx : x = (x ^ ((5 : ℝ) / 12)) ^ ((12 : ℝ) / 5) := by
          rw [← Real.rpow_mul h0]
          norm_num
        rw [hxx]
        calc (x ^ ((5 : ℝ) / 12)) ^ ((12 : ℝ) / 5) ≤
            (0.09047394 : ℝ) ^ ((12 : ℝ) / 5) :=
              Real.rpow_le_rpow (Real.rpow_nonneg h0 _) hub5 (by norm_num)
          _ ≤ 0.0031309 := rpow_le_of_pow_le 0.09047394 0.0031309
              ((12 : ℝ) / 5) 12 5 (by norm_num) (by norm_num) (by norm_num)
              (by push_cast; norm_num) (by norm_num)
      constructor <;> nlinarith [hu0, hB, hxub, hA]
    · push_neg at hB
      simp only [sRGBToLinearChannel]
      rw [if_neg (not_le.mpr hB)]
      have hu_nn : (0 : ℝ) ≤ x ^ (0.41666 : ℝ) := Real.rpow_nonneg h0 _
      have hb_lo : x ^ (0.41666 : ℝ) * (1 - 0.0000000003) ≤
          (x ^ (0.41666 : ℝ) * 1.055 - 0.055) * 0.9478672986 + 0.0521327014 := by
        nlinarith [hu0]
      have hb_hi : (x ^ (0.41666 : ℝ) * 1.055 - 0.055) * 0.9478672986 +
          0.0521327014 ≤ x ^ (0.41666 : ℝ) * (1 + 0.0000000003) := by
        nlinarith [hu0, hu1]
      have hb0 : (0 : ℝ) ≤ x ^ (0.41666 : ℝ) * (1 - 0.0000000003) :=
        mul_nonneg hu_nn (by norm_num)
      have hRT_lo : (x ^ (0.41666 : ℝ) * (1 - 0.0000000003)) ^ (2.4 : ℝ) ≤
          ((x ^ (0.41666 : ℝ) * 1.055 - 0.055) * 0.9478672986 +
            0.0521327014) ^ (2.4 : ℝ) :=
        Real.rpow_le_rpow hb0 hb_lo (by norm_num)
      have hRT_hi : ((x ^ (0.41666 : ℝ) * 1.055 - 0.055) * 0.9478672986 +
            0.0521327014) ^ (2.4 : ℝ) ≤
          (x ^ (0.41666 : ℝ) * (1 + 0.0000000003)) ^ (2.4 : ℝ) :=
        Real.rpow_le_rpow (le_trans hb0 hb_lo) hb_hi (by norm_num)
      have hmul_lo : (x ^ (0.41666 : ℝ) * (1 - 0.0000000003)) ^ (2.4 : ℝ) =
          (x ^ (0.41666 : ℝ)) ^ (2.4 : ℝ) * ((1 - 0.0000000003 : ℝ)) ^ (2.4 : ℝ) :=
        Real.mul_rpow hu_nn (by norm_num)
      have hmul_hi : (x ^ (0.41666 : ℝ) * (1 + 0.0000000003)) ^ (2.4 : ℝ) =
          (x ^ (0.41666 : ℝ)) ^ (2.4 : ℝ) * ((1 + 0.0000000003 : ℝ)) ^ (2.4 : ℝ) :=
        Real.mul_rpow hu_nn (by norm_num)
      have hpow : (x ^ (0.41666 : ℝ)) ^ (2.4 : ℝ) = x ^ (0.999984 : ℝ) := by
        rw [← Real.rpow_mul h0]
        norm_num
      have heps_hi : ((1 : ℝ) + 0.0000000003) ^ (2.4 : ℝ) ≤ 1 + 0.0000000013 := by
        have h2 : ((1 : ℝ) + 0.0000000003) ^ (2.4 : ℝ) ≤
            ((1 : ℝ) + 0.0000000003) ^ ((3 : ℕ) : ℝ) :=
          Real.rpow_le_rpow_of_exponent_le (by norm_num) (by push_cast; norm_num)
        rw [Real.rpow_natCast] at h2
        have h3 : ((1 : ℝ) + 0.0000000003) ^ (3 : ℕ) ≤ 1 + 0.0000000013 := by
          norm_num
        exact le_trans h2 h3
      have heps_lo : (1 : ℝ) - 0.0000000013 ≤
          ((1 : ℝ) - 0.0000000003) ^ (2.4 : ℝ) := by
        have h2 : ((1 : ℝ) - 0.0000000003) ^ ((3 : ℕ) : ℝ) ≤
            ((1 : ℝ) - 0.0000000003) ^ (2.4 : ℝ) :=
          Real.rpow_le_rpow_of_exponent_ge (by norm_num) (by norm_num)
            (by push_cast; norm_num)
        rw [Real.rpow_natCast] at h2
        have h3 : (1 : ℝ) - 0.0000000013 ≤ ((1 : ℝ) - 0.0000000003) ^ (3 : ℕ) := by
          norm_num
        exact le_trans h3 h2
      have hL1 := rpow_near_one_bounds x hxpos h1
      have hxc_nn : (0 : ℝ) ≤ x ^ (0.999984 : ℝ) := Real.rpow_nonneg h0 _
      have hxc_le1 : x ^ (0.999984 : ℝ) ≤ 1 :=
        Real.rpow_le_one h0 h1 (by norm_num)
      rw [hmul_lo, hpow] at hRT_lo
      rw [hmul_hi, hpow] at hRT_hi
      have hAB_lo : x ^ (0.999984 : ℝ) * (1 - 0.0000000013) ≤
          x ^ (0.999984 : ℝ) * ((1 - 0.0000000003 : ℝ)) ^ (2.4 : ℝ) :=
        mul_le_mul_of_nonneg_left heps_lo hxc_nn
      have hAB_hi : x ^ (0.999984 : ℝ) * ((1 + 0.0000000003 : ℝ)) ^ (2.4 : ℝ) ≤
          x ^ (0.999984 : ℝ) * (1 + 0.0000000013) :=
        mul_le_mul_of_nonneg_left heps_hi hxc_nn
      constructor
      · linarith [hRT_lo, hAB_lo, hL1.1, hxc_le1]
      · linarith [hRT_hi, hAB_hi, hL1.2, hxc_le1, hxc_nn]

set_option maxHeartbeats 1000000 in
/-- Round trip sRGB -> linear -> sRGB: composing the shader pair
sRGBToLinear then LinearTosRGB reproduces the input channel within 1e-4
on [0, 1]. -/
theorem roundtrip_linearize_then_encode (x : ℝ) (h0 : 0 ≤ x) (h1 : x ≤ 1) :
    |LinearTosRGBChannel (sRGBToLinearChannel x) - x| ≤ 0.0001 := by
  rw [abs_le]
  by_cases hA : x ≤ 0.04045
  · simp only [sRGBToLinearChannel]
    rw [if_pos hA]
    by_cases hB : x * 0.0773993808 ≤ 0.0031308
    · simp only [LinearTosRGBChannel]
      rw [if_pos hB]
      constructor <;> nlinarith
    · push_neg at hB
      simp only [LinearTosRGBChannel]
      rw [if_neg (not_le.mpr hB)]
      have hw_nn : (0 : ℝ) ≤ x * 0.0773993808 := mul_nonneg h0 (by norm_num)
      have hw_lo : (0.0031308 : ℝ) ≤ x * 0.0773993808 := hB.le
      have hw_hi : x * 0.0773993808 ≤ 0.00313080495336 := by nlinarith
      have hw_le1 : x * 0.0773993808 ≤ 1 := by nlinarith
      have hsnug := rpow_snug (x * 0.0773993808) hw_lo hw_le1
      have h512lo : (0.0031308 : ℝ) ^ ((5 : ℝ) / 12) ≤
          (x * 0.0773993808) ^ ((5 : ℝ) / 12) :=
        Real.rpow_le_rpow (by norm_num) hw_lo (by norm_num)
      have h512hi : (x * 0.0773993808) ^ ((5 : ℝ) / 12) ≤
          (0.00313080495336 : ℝ) ^ ((5 : ℝ) / 12) :=
        Real.rpow_le_rpow hw_nn hw_hi (by norm_num)
      have hubw : (0.00313080495336 : ℝ) ^ ((5 : ℝ) / 12) ≤ 0.0904740 :=
        rpow_le_of_pow_le 0.00313080495336 0.0904740 ((5 : ℝ) / 12) 5 12
          (by norm_num) (by norm_num) (by norm_num) (by push_cast; norm_num)
          (by norm_num)
      have hW_lo : (0.0904738 : ℝ) ≤ (x * 0.0773993808) ^ (0.41666 : ℝ) :=
        le_trans joint_rpow_lb (le_trans h512lo hsnug.1)
      have hW_hi : (x * 0.0773993808) ^ (0.41666 : ℝ) ≤ 1.00004 * 0.0904740 := by
        calc (x * 0.0773993808) ^ (0.41666 : ℝ) ≤
            1.00004 * (x * 0.0773993808) ^ ((5 : ℝ) / 12) := hsnug.2
          _ ≤ 1.00004 * 0.0904740 := by nlinarith [h512hi, hubw]
      constructor
      · linarith [hW_lo, hA]
      · linarith [hW_hi, hB]
  · push_neg at hA
    simp only [sRGBToLinearChannel]
    rw [if_neg (not_le.mpr hA)]
    have hb_lo : (0.09047393362837 : ℝ) < x * 0.9478672986 + 0.0521327014 := by
      nlinarith
    have hb_le1 : x * 0.9478672986 + 0.0521327014 ≤ 1 := by nlinarith
    have hb_nn : (0 : ℝ) ≤ x * 0.9478672986 + 0.0521327014 := by nlinarith
    have hrb : (0.0031308 : ℝ) ≤ (0.09047393362837 : ℝ) ^ (2.4 : ℝ) :=
      le_rpow_of_pow_le 0.09047393362837 0.0031308 (2.4 : ℝ) 12 5
        (by norm_num) (by norm_num) (by push_cast; norm_num) (by norm_num)
    have hw_gt : (0.0031308 : ℝ) <
        (x * 0.9478672986 + 0.0521327014) ^ (2.4 : ℝ) :=
      lt_of_le_of_lt hrb (Real.rpow_lt_rpow (by norm_num) hb_lo (by norm_num))
    simp only [LinearTosRGBChannel]
    rw [if_neg (not_le.mpr hw_gt)]
    have hw_le1 : (x * 0.9478672986 + 0.0521327014) ^ (2.4 : ℝ) ≤ 1 :=
      Real.rpow_le_one hb_nn hb_le1 (by norm_num)
    have hsnug := rpow_snug ((x * 0.9478672986 + 0.0521327014) ^ (2.4 : ℝ))
      hw_gt.le hw_le1
    have hcollapse : ((x * 0.9478672986 + 0.0521327014) ^ (2.4 : ℝ)) ^
        ((5 : ℝ) / 12) = x * 0.9478672986 + 0.0521327014 := by
      rw [← Real.rpow_mul hb_nn]
      norm_num
    rw [hcollapse] at hsnug
    constructor
    · linarith [hsnug.1, h0]
    · linarith [hsnug.2, h1, h0]

/-- C7: for every x in [0, 1] the shader transfer pair round trips within
the 1e-4 tolerance in both orders, linearize(sRGBEncode(x)) and
sRGBEncode(linearize(x)), where sRGBEncode is the shader function
LinearTosRGB and linearize is the shader function sRGBToLinear; the
quantification over the whole interval covers both piecewise boundary
points 0.04045 and 0.0031308. -/
theorem srgb_transfer_roundtrip (x : ℝ) (h0 : 0 ≤ x) (h1 : x ≤ 1) :
    |(sRGBToLinear (LinearTosRGB ⟨x, x, x, 1⟩)).x - x| ≤ 0.0001 ∧
      |(LinearTosRGB (sRGBToLinear ⟨x, x, x, 1⟩)).x - x| ≤ 0.0001 :=
  ⟨roundtrip_encode_then_linearize x h0 h1,
    roundtrip_linearize_then_encode x h0 h1⟩

/-- C7 witness: the round trip bound evaluated at the sRGB piecewise
boundary point 0.04045. -/
theorem srgb_transfer_roundtrip_witness :
    |(sRGBToLinear (LinearTosRGB ⟨0.04045, 0.04045, 0.04045, 1⟩)).x -
        0.04045| ≤ 0.0001 ∧
      |(LinearTosRGB (sRGBToLinear ⟨0.04045, 0.04045, 0.04045, 1⟩)).x -
        0.04045| ≤ 0.0001 :=
  srgb_transfer_roundtrip 0.04045 (by norm_num) (by norm_num)
